import Mathlib

/-!
Shallow embedding of the orchestration layer of `src/main.py` of the
daily_stock_analysis repository: work-list assembly (static list plus scan
probe with deduplication), the phase sequence of `run_full_analysis`
(scan, per-symbol batch, cooldown delay, market review, summary,
completion log), and the exit-code logic of `main` and the `__main__`
guard.  External collaborators (the pipeline, the scan probe, the market
review, configuration loading) are modelled as inputs of type `Except`:
`.ok` is a normal return, `.error` a raised exception.
-/

namespace DailyStockAnalysis

/-- Value of the `stock_list` configuration attribute as seen by
`run_full_analysis`: a comma-separated string, a list, or anything else
(including the attribute being absent, covered by the `getattr` default). -/
inductive StockListValue where
  | str (s : String)
  | list (l : List String)
  | other
deriving DecidableEq

/-- The configuration fields of `Config` that `main.py` reads or writes. -/
structure Config where
  stock_list : StockListValue
  single_stock_notify : Bool
  market_review_enabled : Bool
  /-- `getattr(config, 'analysis_delay', 2)`: `none` models a missing attribute. -/
  analysis_delay : Option Nat
deriving DecidableEq

/-- The command-line arguments produced by `parse_arguments` that the
analysis flow reads. -/
structure Args where
  debug : Bool
  dry_run : Bool
  stocks : Option String
  no_notify : Bool
  single_notify : Bool
  market_review : Bool
  no_market_review : Bool
deriving DecidableEq

/-- A per-symbol analysis result as consumed by the summary loop of
`run_full_analysis`; `none` models a missing attribute, whose access
(`r.name`, `r.code`, `r.operation_advice`) raises. -/
structure AnalysisResult where
  code : Option String
  name : Option String
  operation_advice : Option String
deriving DecidableEq

/-- The collaborator handles held by the `StockAnalysisPipeline` object and
passed to `run_market_review`; opaque identities. -/
structure Pipeline where
  notifier : Nat
  analyzer : Nat
  search_service : Nat
deriving DecidableEq

/-- Outcomes of the external collaborator calls made during one run of
`run_full_analysis`: each field is the result the collaborator would
produce when invoked (`.error` = it raises). -/
structure Env where
  /-- outcome of `scan_for_destruction(limit=3)` -/
  probe : Except String (List String)
  /-- the pipeline object's collaborator handles -/
  pipeline : Pipeline
  /-- outcome of `pipeline.run(stock_codes, dry_run, send_notification)` -/
  pipelineRun : List String → Bool → Bool → Except String (List AnalysisResult)
  /-- outcome of `run_market_review(...)` inside `run_full_analysis` -/
  reviewRun : Except String (Option String)
  /-- outcome of the `--market-review`-only branch of `main` -/
  reviewOnly : Except String Unit

/-- Outcomes of the startup steps of `main` that run before its `try` block. -/
structure StartupEnv where
  getConfig : Except String Config
  validate : Config → Except String Unit

/-- Observable events of one run, in emission order: log lines and
collaborator invocations. -/
inductive Event where
  /-- `scan_for_destruction` is invoked -/
  | probeCall
  /-- a probe finding is appended and logged as captured -/
  | captured (code : String)
  /-- the scan block's `except` logs the probe fault -/
  | scanFault (msg : String)
  /-- `pipeline.run(stock_codes, dry_run, send_notification)` is invoked -/
  | pipelineCall (codes : List String) (dryRun : Bool) (sendNotification : Bool)
  /-- `time.sleep(d)` -/
  | sleep (d : Nat)
  /-- `run_market_review(notifier, analyzer, search_service)` is invoked -/
  | reviewCall (notifier analyzer searchService : Nat)
  /-- the "分析结果摘要" header line -/
  | summaryHeader
  /-- one `f"{name}({code}): {advice}"` summary line -/
  | summaryLine (line : String)
  /-- the final "任务执行完成" line -/
  | complete
  /-- `logger.exception` in the `except` clause of `run_full_analysis` -/
  | flowFault (msg : String)
deriving DecidableEq

/-- Python's `str.strip()` on the character list: drop leading and
trailing whitespace. -/
def stripChars (l : List Char) : List Char :=
  ((l.dropWhile Char.isWhitespace).reverse.dropWhile Char.isWhitespace).reverse

/-- Python's `str.strip()`. -/
def pyStrip (s : String) : String :=
  ⟨stripChars s.data⟩

/-- `[s.strip() for s in raw.split(',') if s.strip()]`. -/
def parseStaticStr (raw : String) : List String :=
  ((raw.splitOn ",").map pyStrip).filter (fun s => s ≠ "")

/-- Lines 101-107 of `main.py`: resolve the static stock list from
configuration when no override was passed. -/
def resolveStaticList (cfg : Config) : List String :=
  match cfg.stock_list with
  | .str s => parseStaticStr s
  | .list l => l
  | .other => []

/-- Lines 94-95 of `main.py`: `if args.single_notify:
config.single_stock_notify = True`. -/
def applySingleNotify (cfg : Config) (singleNotify : Bool) : Config :=
  if singleNotify then { cfg with single_stock_notify := true } else cfg

/-- The probe findings that the scan loop appends: those not already
present in the accumulated list, in emission order. -/
def newFinds (acc : List String) : List String → List String
  | [] => []
  | p :: ps => if p ∈ acc then newFinds acc ps else p :: newFinds (acc ++ [p]) ps

/-- The scan loop itself: `for code in panic_targets: if code not in
stock_codes: stock_codes.append(code)`. -/
def dedupAppend (acc : List String) (p : List String) : List String :=
  p.foldl (fun a code => if code ∈ a then a else a ++ [code]) acc

/-- Lines 111-122 of `main.py`: the scan block.  Skipped entirely under
`--dry-run`; a probe fault is caught and logged, keeping the list as
assembled so far.  Returns the emitted events and the resulting
work-list. -/
def scanPhase (staticCodes : List String) (dryRun : Bool)
    (probe : Except String (List String)) : List Event × List String :=
  if dryRun then ([], staticCodes)
  else
    match probe with
    | .ok p => (Event.probeCall :: (newFinds staticCodes p).map Event.captured,
                dedupAppend staticCodes p)
    | .error e => ([Event.probeCall, Event.scanFault e], staticCodes)

/-- One summary line `f"{r.name}({r.code}): {r.operation_advice}"`;
raises when a field is missing. -/
def summaryLineOf (r : AnalysisResult) : Except String String :=
  match r.name with
  | none => .error "missing name"
  | some nm =>
    match r.code with
    | none => .error "missing code"
    | some cd =>
      match r.operation_advice with
      | none => .error "missing advice"
      | some adv => .ok (nm ++ "(" ++ cd ++ "): " ++ adv)

/-- The summary loop body: emits one line per result until the first
record whose field access raises (the raised message, if any, is the
second component). -/
def summaryLoop : List AnalysisResult → List Event × Option String
  | [] => ([], none)
  | r :: rs =>
    match summaryLineOf r with
    | .error e => ([], some e)
    | .ok line => (Event.summaryLine line :: (summaryLoop rs).1, (summaryLoop rs).2)

/-- Lines 145-148 of `main.py`: `if results:` print the header then one
line per result. -/
def summaryPhase (results : List AnalysisResult) : List Event × Option String :=
  if results = [] then ([], none)
  else (Event.summaryHeader :: (summaryLoop results).1, (summaryLoop results).2)

/-- Lines 133-142 of `main.py`: when review is enabled and not suppressed,
sleep `getattr(config, 'analysis_delay', 2)` then call
`run_market_review(pipeline.notifier, pipeline.analyzer,
pipeline.search_service)` once; a raised review fault is the second
component. -/
def reviewPhase (cfg : Config) (args : Args) (pl : Pipeline)
    (outcome : Except String (Option String)) : List Event × Option String :=
  if cfg.market_review_enabled && !args.no_market_review then
    let d := cfg.analysis_delay.getD 2
    ([Event.sleep d, Event.reviewCall pl.notifier pl.analyzer pl.search_service],
     match outcome with
     | .error e => some e
     | .ok _ => none)
  else ([], none)

/-- Lines 100-108 of `main.py`: the static work-list in effect — the
explicit override when one was passed, otherwise the list resolved from
configuration (read after the single-notify adjustment). -/
def staticList (cfg : Config) (args : Args)
    (stockCodes0 : Option (List String)) : List String :=
  match stockCodes0 with
  | some l => l
  | none => resolveStaticList (applySingleNotify cfg args.single_notify)

/-- The run's events after `pipeline.run` was invoked, as a function of
its outcome: a raised batch fault, or else the review phase followed by
the summary and the completion line, any raised fault being caught by the
flow-level `except` (`flowFault`) and cutting the rest short. -/
def batchTail (cfg1 : Config) (args : Args) (env : Env)
    (outcome : Except String (List AnalysisResult)) : List Event :=
  match outcome with
  | .error e => [Event.flowFault e]
  | .ok results =>
    let revEvs := (reviewPhase cfg1 args env.pipeline env.reviewRun).1
    match (reviewPhase cfg1 args env.pipeline env.reviewRun).2 with
    | some e => revEvs ++ [Event.flowFault e]
    | none =>
      match (summaryPhase results).2 with
      | some e => revEvs ++ (summaryPhase results).1 ++ [Event.flowFault e]
      | none => revEvs ++ (summaryPhase results).1 ++ [Event.complete]

/-- `run_full_analysis(config, args, stock_codes)`: the full flow.  The
body runs inside `try/except Exception`, so any raised fault ends the
trace with a `flowFault` log instead of propagating; the function itself
always returns. -/
def runFullAnalysis (cfg : Config) (args : Args)
    (stockCodes0 : Option (List String)) (env : Env) : List Event :=
  let workList := (scanPhase (staticList cfg args stockCodes0) args.dry_run env.probe).2
  (scanPhase (staticList cfg args stockCodes0) args.dry_run env.probe).1 ++
    Event.pipelineCall workList args.dry_run (!args.no_notify) ::
    batchTail (applySingleNotify cfg args.single_notify) args env
      (env.pipelineRun workList args.dry_run (!args.no_notify))

/-- Lines 175-177 of `main.py`: `if args.stocks: stock_codes = [c.strip()
for c in args.stocks.split(',') if c.strip()]`; an absent or empty (falsy)
`--stocks` leaves `stock_codes = None`. -/
def parseStocksArg (stocks : Option String) : Option (List String) :=
  match stocks with
  | none => none
  | some s => if s = "" then none else some (parseStaticStr s)

/-- `main()`: startup (get_config, validate) runs before the `try` block,
so a raised startup fault propagates out (`.error`); inside the `try`, the
`--market-review`-only branch returns 1 on a caught fault, and the normal
path runs `run_full_analysis` (which never raises) and returns 0. -/
def mainRun (senv : StartupEnv) (args : Args) (env : Env) :
    Except String (Nat × List Event) :=
  match senv.getConfig with
  | .error e => .error e
  | .ok cfg =>
    match senv.validate cfg with
    | .error e => .error e
    | .ok _ =>
      if args.market_review then
        match env.reviewOnly with
        | .error _ => .ok (1, [])
        | .ok _ => .ok (0, [])
      else
        .ok (0, runFullAnalysis cfg args (parseStocksArg args.stocks) env)

/-- The `__main__` guard: `sys.exit(main())`, with an exception escaping
`main` caught and converted to `sys.exit(1)`. -/
def processExit (senv : StartupEnv) (args : Args) (env : Env) : Nat :=
  match mainRun senv args env with
  | .ok (n, _) => n
  | .error _ => 1

/-- A top-level configuration or startup fault: `get_config()` or
`config.validate()` raises before the analysis flow starts. -/
def startupFaultB (senv : StartupEnv) : Bool :=
  match senv.getConfig with
  | .error _ => true
  | .ok cfg =>
    match senv.validate cfg with
    | .error _ => true
    | .ok _ => false

/-! ### Lemmas about the scan-loop deduplication -/

theorem dedupAppend_nil (acc : List String) : dedupAppend acc [] = acc := rfl

theorem dedupAppend_cons (acc : List String) (x : String) (xs : List String) :
    dedupAppend acc (x :: xs) =
      dedupAppend (if x ∈ acc then acc else acc ++ [x]) xs := rfl

theorem dedupAppend_eq_newFinds :
    ∀ (p acc : List String), dedupAppend acc p = acc ++ newFinds acc p
  | [], acc => by simp [dedupAppend_nil, newFinds]
  | x :: xs, acc => by
    rw [dedupAppend_cons]
    unfold newFinds
    by_cases h : x ∈ acc
    · rw [if_pos h, if_pos h, dedupAppend_eq_newFinds xs acc]
    · rw [if_neg h, if_neg h, dedupAppend_eq_newFinds xs (acc ++ [x])]
      simp

theorem newFinds_not_mem :
    ∀ (ps acc : List String) (x : String), x ∈ newFinds acc ps → x ∉ acc
  | [], _, _ => by simp [newFinds]
  | p :: ps, acc, x => by
    unfold newFinds
    by_cases h : p ∈ acc
    · rw [if_pos h]
      exact newFinds_not_mem ps acc x
    · rw [if_neg h]
      intro hmem
      rcases List.mem_cons.mp hmem with rfl | hx
      · exact h
      · intro hacc
        exact newFinds_not_mem ps (acc ++ [p]) x hx (by simp [hacc])

theorem newFinds_nodup : ∀ (ps acc : List String), (newFinds acc ps).Nodup
  | [], _ => by simp [newFinds]
  | p :: ps, acc => by
    unfold newFinds
    by_cases h : p ∈ acc
    · rw [if_pos h]
      exact newFinds_nodup ps acc
    · rw [if_neg h, List.nodup_cons]
      refine ⟨fun hp => ?_, newFinds_nodup ps (acc ++ [p])⟩
      have := newFinds_not_mem ps (acc ++ [p]) p hp
      simp at this

/-! ### Lemmas about the shape of the run trace -/

/-- Events that can be emitted after the batch call (review, summary,
completion, caught flow fault) — never the scan-block or batch-call
events. -/
def tailEvent : Event → Bool
  | .sleep _ => true
  | .reviewCall _ _ _ => true
  | .summaryHeader => true
  | .summaryLine _ => true
  | .complete => true
  | .flowFault _ => true
  | _ => false

/-- Events the scan block can emit. -/
def scanEvent : Event → Bool
  | .probeCall => true
  | .captured _ => true
  | .scanFault _ => true
  | _ => false

theorem scanPhase_events (staticCodes : List String) (dryRun : Bool)
    (probe : Except String (List String)) :
    ∀ ev ∈ (scanPhase staticCodes dryRun probe).1, scanEvent ev = true := by
  intro ev hmem
  unfold scanPhase at hmem
  split at hmem
  · simp at hmem
  · split at hmem
    · rcases List.mem_cons.mp hmem with rfl | hx
      · rfl
      · obtain ⟨c, _, rfl⟩ := List.mem_map.mp hx
        rfl
    · simp only [List.mem_cons, List.not_mem_nil, or_false] at hmem
      rcases hmem with rfl | rfl <;> rfl

theorem summaryLoop_events :
    ∀ (rs : List AnalysisResult), ∀ ev ∈ (summaryLoop rs).1, ∃ l, ev = Event.summaryLine l
  | [] => by simp [summaryLoop]
  | r :: rs => by
    intro ev hmem
    unfold summaryLoop at hmem
    cases h : summaryLineOf r with
    | error e => rw [h] at hmem; simp at hmem
    | ok line =>
      rw [h] at hmem
      simp only [List.mem_cons] at hmem
      rcases hmem with rfl | hx
      · exact ⟨line, rfl⟩
      · exact summaryLoop_events rs ev hx

theorem reviewPhase_fst (cfg1 : Config) (args : Args) (pl : Pipeline)
    (outcome : Except String (Option String)) :
    (reviewPhase cfg1 args pl outcome).1 =
      if cfg1.market_review_enabled && !args.no_market_review then
        [Event.sleep (cfg1.analysis_delay.getD 2),
         Event.reviewCall pl.notifier pl.analyzer pl.search_service]
      else [] := by
  unfold reviewPhase
  split <;> rfl

theorem reviewPhase_events (cfg1 : Config) (args : Args) (pl : Pipeline)
    (outcome : Except String (Option String)) :
    ∀ ev ∈ (reviewPhase cfg1 args pl outcome).1, tailEvent ev = true := by
  intro ev hmem
  rw [reviewPhase_fst] at hmem
  split at hmem
  · simp only [List.mem_cons, List.not_mem_nil, or_false] at hmem
    rcases hmem with rfl | rfl <;> rfl
  · simp at hmem

theorem summaryPhase_events (results : List AnalysisResult) :
    ∀ ev ∈ (summaryPhase results).1, tailEvent ev = true := by
  intro ev hmem
  unfold summaryPhase at hmem
  split at hmem
  · simp at hmem
  · rcases List.mem_cons.mp hmem with rfl | hx
    · rfl
    · obtain ⟨l, rfl⟩ := summaryLoop_events results ev hx
      rfl

theorem complete_not_mem_reviewPhase (cfg1 : Config) (args : Args) (pl : Pipeline)
    (outcome : Except String (Option String)) :
    Event.complete ∉ (reviewPhase cfg1 args pl outcome).1 := by
  rw [reviewPhase_fst]
  split <;> simp

theorem complete_not_mem_summaryPhase (results : List AnalysisResult) :
    Event.complete ∉ (summaryPhase results).1 := by
  intro h
  unfold summaryPhase at h
  split at h
  · simp at h
  · rcases List.mem_cons.mp h with h1 | h2
    · exact absurd h1 (by simp)
    · obtain ⟨l, hl⟩ := summaryLoop_events results _ h2
      simp at hl

theorem batchTail_events (cfg1 : Config) (args : Args) (env : Env)
    (outcome : Except String (List AnalysisResult)) :
    ∀ ev ∈ batchTail cfg1 args env outcome, tailEvent ev = true := by
  intro ev hmem
  cases outcome with
  | error e =>
    simp only [batchTail, List.mem_singleton] at hmem
    subst hmem; rfl
  | ok results =>
    simp only [batchTail] at hmem
    split at hmem
    · rcases List.mem_append.mp hmem with h1 | h2
      · exact reviewPhase_events _ _ _ _ ev h1
      · simp only [List.mem_singleton] at h2; subst h2; rfl
    · split at hmem
      · rcases List.mem_append.mp hmem with h1 | h2
        · rcases List.mem_append.mp h1 with h3 | h4
          · exact reviewPhase_events _ _ _ _ ev h3
          · exact summaryPhase_events _ ev h4
        · simp only [List.mem_singleton] at h2; subst h2; rfl
      · rcases List.mem_append.mp hmem with h1 | h2
        · rcases List.mem_append.mp h1 with h3 | h4
          · exact reviewPhase_events _ _ _ _ ev h3
          · exact summaryPhase_events _ ev h4
        · simp only [List.mem_singleton] at h2; subst h2; rfl

/-- Unfolding equation of `runFullAnalysis`. -/
theorem runFullAnalysis_def (cfg : Config) (args : Args)
    (codes0 : Option (List String)) (env : Env) :
    runFullAnalysis cfg args codes0 env =
      (scanPhase (staticList cfg args codes0) args.dry_run env.probe).1 ++
        Event.pipelineCall (scanPhase (staticList cfg args codes0) args.dry_run env.probe).2
          args.dry_run (!args.no_notify) ::
        batchTail (applySingleNotify cfg args.single_notify) args env
          (env.pipelineRun (scanPhase (staticList cfg args codes0) args.dry_run env.probe).2
            args.dry_run (!args.no_notify)) := rfl

/-- The cooldown delay event. -/
def isSleep : Event → Bool
  | .sleep _ => true
  | _ => false

/-- The market-review invocation event. -/
def isReviewCall : Event → Bool
  | .reviewCall _ _ _ => true
  | _ => false

theorem applySingleNotify_fields (cfg : Config) (b : Bool) :
    (applySingleNotify cfg b).stock_list = cfg.stock_list ∧
    (applySingleNotify cfg b).market_review_enabled = cfg.market_review_enabled ∧
    (applySingleNotify cfg b).analysis_delay = cfg.analysis_delay ∧
    (applySingleNotify cfg b).single_stock_notify = (cfg.single_stock_notify || b) := by
  cases b <;> simp [applySingleNotify]

theorem summaryPhase_events_shape (results : List AnalysisResult) :
    ∀ ev ∈ (summaryPhase results).1,
      ev = Event.summaryHeader ∨ ∃ l, ev = Event.summaryLine l := by
  intro ev hmem
  unfold summaryPhase at hmem
  split at hmem
  · simp at hmem
  · rcases List.mem_cons.mp hmem with rfl | hx
    · exact Or.inl rfl
    · exact Or.inr (summaryLoop_events results ev hx)

theorem batchTail_ok_decomp (cfg1 : Config) (args : Args) (env : Env)
    (results : List AnalysisResult) :
    ∃ rest, batchTail cfg1 args env (.ok results) =
        (reviewPhase cfg1 args env.pipeline env.reviewRun).1 ++ rest ∧
      ∀ ev ∈ rest, isSleep ev = false ∧ isReviewCall ev = false := by
  simp only [batchTail]
  split
  case _ e _ =>
    refine ⟨[Event.flowFault e], rfl, ?_⟩
    intro ev hmem
    simp only [List.mem_singleton] at hmem
    subst hmem
    exact ⟨rfl, rfl⟩
  case _ _ =>
    have hshape : ∀ tailEv : Event, (∀ ev ∈ (summaryPhase results).1 ++ [tailEv],
        (ev = tailEv ∨ ev ∈ (summaryPhase results).1)) := by
      intro tailEv ev hmem
      rcases List.mem_append.mp hmem with h1 | h2
      · exact Or.inr h1
      · simp only [List.mem_singleton] at h2
        exact Or.inl h2
    split
    case _ e _ =>
      refine ⟨(summaryPhase results).1 ++ [Event.flowFault e],
        List.append_assoc _ _ _, ?_⟩
      intro ev hmem
      rcases hshape (Event.flowFault e) ev hmem with rfl | h2
      · exact ⟨rfl, rfl⟩
      · rcases summaryPhase_events_shape results ev h2 with rfl | ⟨l, rfl⟩ <;> exact ⟨rfl, rfl⟩
    case _ _ =>
      refine ⟨(summaryPhase results).1 ++ [Event.complete],
        List.append_assoc _ _ _, ?_⟩
      intro ev hmem
      rcases hshape Event.complete ev hmem with rfl | h2
      · exact ⟨rfl, rfl⟩
      · rcases summaryPhase_events_shape results ev h2 with rfl | ⟨l, rfl⟩ <;> exact ⟨rfl, rfl⟩

theorem reviewPhase_congr (cfg1 cfg2 : Config) (args : Args) (pl : Pipeline)
    (outcome : Except String (Option String))
    (h1 : cfg1.market_review_enabled = cfg2.market_review_enabled)
    (h2 : cfg1.analysis_delay = cfg2.analysis_delay) :
    reviewPhase cfg1 args pl outcome = reviewPhase cfg2 args pl outcome := by
  unfold reviewPhase
  rw [h1, h2]

theorem batchTail_congr (cfg1 cfg2 : Config) (args : Args) (env : Env)
    (outcome : Except String (List AnalysisResult))
    (h1 : cfg1.market_review_enabled = cfg2.market_review_enabled)
    (h2 : cfg1.analysis_delay = cfg2.analysis_delay) :
    batchTail cfg1 args env outcome = batchTail cfg2 args env outcome := by
  unfold batchTail
  rw [reviewPhase_congr cfg1 cfg2 args env.pipeline env.reviewRun h1 h2]

theorem pipelineCall_mem_run (cfg : Config) (args : Args)
    (codes0 : Option (List String)) (env : Env) :
    Event.pipelineCall (scanPhase (staticList cfg args codes0) args.dry_run env.probe).2
      args.dry_run (!args.no_notify) ∈ runFullAnalysis cfg args codes0 env := by
  rw [runFullAnalysis_def]
  exact List.mem_append_right _ (List.mem_cons_self _ _)

/-! ### Claim theorems -/

/-- C1: for every static list `S` and probe output `P`, the assembled
work-list is `S` followed by the elements of `P` not already present in
the accumulated list, in emission order, with no probe-discovered symbol
duplicated; concretely, `S = ["AAA","BBB"]`, `P = ["BBB","CCC"]` with
dry-run false assembles to `["AAA","BBB","CCC"]`. -/
theorem c1_worklist_assembly (S P : List String) :
    (scanPhase S false (.ok P)).2 = S ++ newFinds S P ∧
    (newFinds S P).Nodup ∧
    (∀ x ∈ newFinds S P, x ∉ S) ∧
    (scanPhase ["AAA", "BBB"] false (.ok ["BBB", "CCC"])).2 = ["AAA", "BBB", "CCC"] := by
  refine ⟨?_, newFinds_nodup P S, fun x hx => newFinds_not_mem P S x hx, by decide⟩
  simp [scanPhase, dedupAppend_eq_newFinds]

/-- C1 witness: the general equation instantiated at a concrete input. -/
theorem c1_worklist_assembly_witness :
    (scanPhase ["AAA"] false (.ok ["AAA", "X"])).2 = ["AAA"] ++ newFinds ["AAA"] ["AAA", "X"] :=
  (c1_worklist_assembly ["AAA"] ["AAA", "X"]).1

/-! ### Concrete fixtures used by witnesses and counterexamples -/

/-- A concrete configuration with review enabled and no delay attribute. -/
def cfgA : Config :=
  { stock_list := .list ["AAA", "BBB"], single_stock_notify := false,
    market_review_enabled := true, analysis_delay := some 0 }

/-- Concrete default-like arguments: analysis mode, nothing suppressed. -/
def argsA : Args :=
  { debug := false, dry_run := false, stocks := none, no_notify := false,
    single_notify := false, market_review := false, no_market_review := false }

/-- Concrete arguments with `--dry-run`. -/
def argsDry : Args :=
  { debug := false, dry_run := true, stocks := none, no_notify := false,
    single_notify := false, market_review := false, no_market_review := false }

/-- A concrete benign environment: probe finds nothing, batch returns no
results, review succeeds. -/
def envA : Env :=
  { probe := .ok [], pipeline := ⟨0, 1, 2⟩,
    pipelineRun := fun _ _ _ => .ok [], reviewRun := .ok none,
    reviewOnly := .ok () }

/-- A concrete environment whose scan probe raises. -/
def envProbeFault : Env :=
  { probe := .error "scan down", pipeline := ⟨0, 1, 2⟩,
    pipelineRun := fun _ _ _ => .ok [], reviewRun := .ok none,
    reviewOnly := .ok () }

/-- C2: under `--dry-run` the scan probe is never invoked, and the batch
is called with exactly the static symbols as its work-list — for every
configuration, argument vector, override and environment. -/
theorem c2_dry_run_skips_probe (cfg : Config) (args : Args)
    (codes0 : Option (List String)) (env : Env) (hdry : args.dry_run = true) :
    Event.probeCall ∉ runFullAnalysis cfg args codes0 env ∧
    Event.pipelineCall (staticList cfg args codes0) true (!args.no_notify) ∈
      runFullAnalysis cfg args codes0 env := by
  have hscan : scanPhase (staticList cfg args codes0) args.dry_run env.probe =
      ([], staticList cfg args codes0) := by
    rw [hdry]; rfl
  constructor
  · intro hmem
    simp only [runFullAnalysis, hscan, List.nil_append, List.mem_cons] at hmem
    rcases hmem with h | h
    · exact absurd h (by simp)
    · have := batchTail_events _ _ _ _ _ h
      simp [tailEvent] at this
  · simp only [runFullAnalysis, hscan, List.nil_append, hdry]
    exact List.mem_cons_self _ _

/-- C2 witness: the theorem applied at a concrete dry-run input. -/
theorem c2_dry_run_skips_probe_witness :
    Event.probeCall ∉ runFullAnalysis cfgA argsDry none envA ∧
    Event.pipelineCall (staticList cfgA argsDry none) true (!argsDry.no_notify) ∈
      runFullAnalysis cfgA argsDry none envA :=
  c2_dry_run_skips_probe cfgA argsDry none envA rfl

/-- C3: when the scan probe raises, the fault is caught and logged and the
run proceeds: the batch is still invoked, with the work-list as assembled
so far (the static symbols only) — the probe fault never aborts the run
nor escapes the assembly step. -/
theorem c3_probe_fault_isolated (cfg : Config) (args : Args)
    (codes0 : Option (List String)) (env : Env) (msg : String)
    (hdry : args.dry_run = false) (hprobe : env.probe = .error msg) :
    Event.scanFault msg ∈ runFullAnalysis cfg args codes0 env ∧
    Event.pipelineCall (staticList cfg args codes0) false (!args.no_notify) ∈
      runFullAnalysis cfg args codes0 env ∧
    (scanPhase (staticList cfg args codes0) false (.error msg)).2 =
      staticList cfg args codes0 := by
  have hscan : scanPhase (staticList cfg args codes0) args.dry_run env.probe =
      ([Event.probeCall, Event.scanFault msg], staticList cfg args codes0) := by
    rw [hdry, hprobe]; rfl
  refine ⟨?_, ?_, rfl⟩
  · simp only [runFullAnalysis, hscan]
    simp
  · simp only [runFullAnalysis, hscan]
    rw [hdry]
    simp

/-- C3 witness: the theorem applied at a concrete probe-fault input. -/
theorem c3_probe_fault_isolated_witness :
    Event.scanFault "scan down" ∈ runFullAnalysis cfgA argsA none envProbeFault ∧
    Event.pipelineCall (staticList cfgA argsA none) false (!argsA.no_notify) ∈
      runFullAnalysis cfgA argsA none envProbeFault ∧
    (scanPhase (staticList cfgA argsA none) false (.error "scan down")).2 =
      staticList cfgA argsA none :=
  c3_probe_fault_isolated cfgA argsA none envProbeFault "scan down" rfl rfl

/-- A result with every field present. -/
def resOK : AnalysisResult :=
  { code := some "AAA", name := some "Alpha", operation_advice := some "hold" }

/-- A concrete environment where the batch succeeds with one result but
the market review raises. -/
def envReviewFault : Env :=
  { probe := .ok [], pipeline := ⟨0, 1, 2⟩,
    pipelineRun := fun _ _ _ => .ok [resOK], reviewRun := .error "review down",
    reviewOnly := .ok () }

/-- C4 counterexample: a run whose batch returns normally (one healthy
result) but whose review phase raises reaches neither the summary section
nor the final completion line — the flow-level `except` skips them, so
"always reached" and "emitted regardless of a review fault" fail. -/
theorem c4_counterexample :
    envReviewFault.pipelineRun (staticList cfgA argsA none) false true =
      .ok [resOK] ∧
    Event.summaryHeader ∉ runFullAnalysis cfgA argsA none envReviewFault ∧
    Event.complete ∉ runFullAnalysis cfgA argsA none envReviewFault := by
  refine ⟨rfl, ?_, ?_⟩ <;> decide

/-- C4 amended: after the batch returns, the completion line is emitted
exactly when neither the review phase nor the summary loop raises — for
any result list, so any number of upstream unit failures — and a raised
review or summary fault is caught by the flow-level handler (logged as a
flow fault, never propagated) at the price of skipping the completion
line. -/
theorem c4_completion_after_batch (cfg : Config) (args : Args)
    (codes0 : Option (List String)) (env : Env) (results : List AnalysisResult)
    (hb : env.pipelineRun (scanPhase (staticList cfg args codes0) args.dry_run env.probe).2
            args.dry_run (!args.no_notify) = .ok results) :
    (Event.complete ∈ runFullAnalysis cfg args codes0 env ↔
      ((reviewPhase (applySingleNotify cfg args.single_notify) args env.pipeline
          env.reviewRun).2 = none ∧ (summaryPhase results).2 = none)) ∧
    (∀ e, (reviewPhase (applySingleNotify cfg args.single_notify) args env.pipeline
            env.reviewRun).2 = some e →
       Event.flowFault e ∈ runFullAnalysis cfg args codes0 env) ∧
    (∀ e, (reviewPhase (applySingleNotify cfg args.single_notify) args env.pipeline
            env.reviewRun).2 = none → (summaryPhase results).2 = some e →
       Event.flowFault e ∈ runFullAnalysis cfg args codes0 env) := by
  rw [runFullAnalysis_def, hb]
  have hscan := scanPhase_events (staticList cfg args codes0) args.dry_run env.probe
  have hrev := reviewPhase_events (applySingleNotify cfg args.single_notify) args
    env.pipeline env.reviewRun
  have hsum := summaryPhase_events results
  refine ⟨?_, ?_, ?_⟩
  · constructor
    · intro hmem
      rcases List.mem_append.mp hmem with h1 | h2
      · have := hscan _ h1; simp [scanEvent] at this
      · rcases List.mem_cons.mp h2 with h3 | h4
        · exact absurd h3 (by simp)
        · simp only [batchTail] at h4
          split at h4
          case _ e heq =>
            rcases List.mem_append.mp h4 with h5 | h6
            · exact absurd h5 (complete_not_mem_reviewPhase _ _ _ _)
            · simp at h6
          case _ heq =>
            split at h4
            case _ e heq2 =>
              rcases List.mem_append.mp h4 with h5 | h6
              · rcases List.mem_append.mp h5 with h7 | h8
                · exact absurd h7 (complete_not_mem_reviewPhase _ _ _ _)
                · exact absurd h8 (complete_not_mem_summaryPhase _)
              · simp at h6
            case _ heq2 => exact ⟨heq, heq2⟩
    · rintro ⟨h1, h2⟩
      simp only [batchTail, h1, h2]
      simp
  · intro e he
    simp only [batchTail, he]
    simp
  · intro e h1 h2
    simp only [batchTail, h1, h2]
    simp

/-- C4 amended witness: the theorem applied at a concrete benign input. -/
theorem c4_completion_after_batch_witness :
    (Event.complete ∈ runFullAnalysis cfgA argsA none envA ↔
      ((reviewPhase (applySingleNotify cfgA argsA.single_notify) argsA envA.pipeline
          envA.reviewRun).2 = none ∧ (summaryPhase []).2 = none)) ∧
    (∀ e, (reviewPhase (applySingleNotify cfgA argsA.single_notify) argsA envA.pipeline
            envA.reviewRun).2 = some e →
       Event.flowFault e ∈ runFullAnalysis cfgA argsA none envA) ∧
    (∀ e, (reviewPhase (applySingleNotify cfgA argsA.single_notify) argsA envA.pipeline
            envA.reviewRun).2 = none → (summaryPhase []).2 = some e →
       Event.flowFault e ∈ runFullAnalysis cfgA argsA none envA) :=
  c4_completion_after_batch cfgA argsA none envA [] rfl

/-- A startup environment where configuration loading and validation both
succeed. -/
def senvOK : StartupEnv :=
  { getConfig := .ok cfgA, validate := fun _ => .ok () }

/-- Concrete arguments with `--market-review` (review-only mode). -/
def argsReviewOnly : Args :=
  { debug := false, dry_run := false, stocks := none, no_notify := false,
    single_notify := false, market_review := true, no_market_review := false }

/-- A concrete environment whose review-only branch raises. -/
def envReviewOnlyFault : Env :=
  { probe := .ok [], pipeline := ⟨0, 1, 2⟩,
    pipelineRun := fun _ _ _ => .ok [], reviewRun := .ok none,
    reviewOnly := .error "review down" }

/-- C5 counterexample: a `--market-review`-only run whose review branch
raises exits with code 1 although no configuration or startup fault
occurred, refuting "exit code 1 exactly when a top-level configuration or
startup fault occurs". -/
theorem c5_counterexample :
    processExit senvOK argsReviewOnly envReviewOnlyFault = 1 ∧
    startupFaultB senvOK = false :=
  ⟨rfl, rfl⟩

/-- C5 amended: the exit code is 0 or 1; it is 0 on every normal-mode run
whose startup succeeds, regardless of per-unit failures or faults inside
the analysis flow (all caught by `run_full_analysis`); it is 1 exactly
when a startup fault (configuration loading or validation raising) occurs
or when, in review-only mode, the review branch raises and is caught by
`main`'s handler. -/
theorem c5_exit_codes (senv : StartupEnv) (args : Args) (env : Env) :
    (processExit senv args env = 0 ∨ processExit senv args env = 1) ∧
    (startupFaultB senv = false → args.market_review = false →
      processExit senv args env = 0) ∧
    (processExit senv args env = 1 ↔
      (startupFaultB senv = true ∨
        (args.market_review = true ∧ ∃ e, env.reviewOnly = .error e))) := by
  unfold processExit mainRun startupFaultB
  cases hg : senv.getConfig with
  | error e => simp
  | ok cfg =>
    cases hv : senv.validate cfg with
    | error e => simp [hv]
    | ok _ =>
      cases hm : args.market_review with
      | false => simp [hv, hm]
      | true =>
        cases hro : env.reviewOnly with
        | error e => simp [hv, hm, hro]
        | ok _ => simp [hv, hm, hro]

/-- C5 amended witness: the theorem applied at a concrete input. -/
theorem c5_exit_codes_witness :
    (processExit senvOK argsA envA = 0 ∨ processExit senvOK argsA envA = 1) ∧
    (startupFaultB senvOK = false → argsA.market_review = false →
      processExit senvOK argsA envA = 0) ∧
    (processExit senvOK argsA envA = 1 ↔
      (startupFaultB senvOK = true ∨
        (argsA.market_review = true ∧ ∃ e, envA.reviewOnly = .error e))) :=
  c5_exit_codes senvOK argsA envA

/-- C6: once the batch has returned, the cooldown delay happens exactly
once when review is enabled and not suppressed and never otherwise; the
review collaborator is likewise invoked exactly once, immediately after
the delay, with the pipeline's notifier, analyzer and search-service
handles, and the delay length is `analysis_delay` with default 2. -/
theorem c6_cooldown_iff_review (cfg : Config) (args : Args)
    (codes0 : Option (List String)) (env : Env) (results : List AnalysisResult)
    (hb : env.pipelineRun (scanPhase (staticList cfg args codes0) args.dry_run env.probe).2
            args.dry_run (!args.no_notify) = .ok results) :
    ((runFullAnalysis cfg args codes0 env).countP isSleep =
      if cfg.market_review_enabled && !args.no_market_review then 1 else 0) ∧
    ((runFullAnalysis cfg args codes0 env).countP isReviewCall =
      if cfg.market_review_enabled && !args.no_market_review then 1 else 0) ∧
    ((cfg.market_review_enabled && !args.no_market_review) = true →
      ∃ pre post, runFullAnalysis cfg args codes0 env =
        pre ++ Event.sleep (cfg.analysis_delay.getD 2) ::
          Event.reviewCall env.pipeline.notifier env.pipeline.analyzer
            env.pipeline.search_service :: post) := by
  obtain ⟨rest, hdecomp, hrest⟩ :=
    batchTail_ok_decomp (applySingleNotify cfg args.single_notify) args env results
  have hfields := applySingleNotify_fields cfg args.single_notify
  have hrev1 : (reviewPhase (applySingleNotify cfg args.single_notify) args
      env.pipeline env.reviewRun).1 =
      if cfg.market_review_enabled && !args.no_market_review then
        [Event.sleep (cfg.analysis_delay.getD 2),
         Event.reviewCall env.pipeline.notifier env.pipeline.analyzer
           env.pipeline.search_service]
      else [] := by
    rw [reviewPhase_fst, hfields.2.1, hfields.2.2.1]
  have htr : runFullAnalysis cfg args codes0 env =
      (scanPhase (staticList cfg args codes0) args.dry_run env.probe).1 ++
        Event.pipelineCall (scanPhase (staticList cfg args codes0) args.dry_run env.probe).2
          args.dry_run (!args.no_notify) ::
        ((reviewPhase (applySingleNotify cfg args.single_notify) args
            env.pipeline env.reviewRun).1 ++ rest) := by
    rw [runFullAnalysis_def, hb, hdecomp]
  have hscanSleep : ((scanPhase (staticList cfg args codes0) args.dry_run env.probe).1).countP
      isSleep = 0 := by
    rw [List.countP_eq_zero]
    intro ev hev
    have := scanPhase_events _ _ _ ev hev
    cases ev <;> simp_all [scanEvent, isSleep]
  have hscanReview : ((scanPhase (staticList cfg args codes0) args.dry_run env.probe).1).countP
      isReviewCall = 0 := by
    rw [List.countP_eq_zero]
    intro ev hev
    have := scanPhase_events _ _ _ ev hev
    cases ev <;> simp_all [scanEvent, isReviewCall]
  have hrestSleep : rest.countP isSleep = 0 := by
    rw [List.countP_eq_zero]
    intro ev hev
    simp [(hrest ev hev).1]
  have hrestReview : rest.countP isReviewCall = 0 := by
    rw [List.countP_eq_zero]
    intro ev hev
    simp [(hrest ev hev).2]
  refine ⟨?_, ?_, ?_⟩
  · rw [htr]
    simp only [List.countP_append, List.countP_cons, hscanSleep, hrestSleep, hrev1]
    split <;> simp [isSleep, List.countP_cons]
  · rw [htr]
    simp only [List.countP_append, List.countP_cons, hscanReview, hrestReview, hrev1]
    split <;> simp [isReviewCall, List.countP_cons]
  · intro hcond
    rw [htr, hrev1, if_pos hcond]
    exact ⟨(scanPhase (staticList cfg args codes0) args.dry_run env.probe).1 ++
      [Event.pipelineCall (scanPhase (staticList cfg args codes0) args.dry_run env.probe).2
        args.dry_run (!args.no_notify)], rest, by simp⟩

/-- C6 witness: the theorem applied at a concrete input with review
enabled. -/
theorem c6_cooldown_iff_review_witness :
    ((runFullAnalysis cfgA argsA none envA).countP isSleep =
      if cfgA.market_review_enabled && !argsA.no_market_review then 1 else 0) ∧
    ((runFullAnalysis cfgA argsA none envA).countP isReviewCall =
      if cfgA.market_review_enabled && !argsA.no_market_review then 1 else 0) ∧
    ((cfgA.market_review_enabled && !argsA.no_market_review) = true →
      ∃ pre post, runFullAnalysis cfgA argsA none envA =
        pre ++ Event.sleep (cfgA.analysis_delay.getD 2) ::
          Event.reviewCall envA.pipeline.notifier envA.pipeline.analyzer
            envA.pipeline.search_service :: post) :=
  c6_cooldown_iff_review cfgA argsA none envA [] rfl

/-- C7 counterexample: with `--single-notify` supplied and the per-unit
notify flag initially off, line 95 of `main.py` mutates the configuration
object during the run — `config.single_stock_notify` flips to `true` — so
the Run Context is not read-only after startup. -/
theorem c7_counterexample :
    applySingleNotify cfgA true ≠ cfgA ∧
    cfgA.single_stock_notify = false ∧
    (applySingleNotify cfgA true).single_stock_notify = true := by
  refine ⟨?_, rfl, rfl⟩
  intro h
  have := congrArg Config.single_stock_notify h
  simp [applySingleNotify, cfgA] at this

/-- C7 amended: the single-notify adjustment at the start of
`run_full_analysis` is the only mutation of the Run Context: it can only
set `single_stock_notify` (to `old || single_notify`), leaves every other
modelled field unchanged, and is the identity when the flag is absent. -/
theorem c7_config_readonly_except_single_notify (cfg : Config) (args : Args) :
    (applySingleNotify cfg args.single_notify).stock_list = cfg.stock_list ∧
    (applySingleNotify cfg args.single_notify).market_review_enabled =
      cfg.market_review_enabled ∧
    (applySingleNotify cfg args.single_notify).analysis_delay = cfg.analysis_delay ∧
    (applySingleNotify cfg args.single_notify).single_stock_notify =
      (cfg.single_stock_notify || args.single_notify) ∧
    (args.single_notify = false → applySingleNotify cfg args.single_notify = cfg) := by
  refine ⟨(applySingleNotify_fields cfg args.single_notify).1,
    (applySingleNotify_fields cfg args.single_notify).2.1,
    (applySingleNotify_fields cfg args.single_notify).2.2.1,
    (applySingleNotify_fields cfg args.single_notify).2.2.2, ?_⟩
  intro h
  rw [h]
  rfl

/-- C7 amended witness: the theorem applied at a concrete input. -/
theorem c7_config_readonly_witness :
    (applySingleNotify cfgA argsA.single_notify).stock_list = cfgA.stock_list ∧
    (applySingleNotify cfgA argsA.single_notify).market_review_enabled =
      cfgA.market_review_enabled ∧
    (applySingleNotify cfgA argsA.single_notify).analysis_delay = cfgA.analysis_delay ∧
    (applySingleNotify cfgA argsA.single_notify).single_stock_notify =
      (cfgA.single_stock_notify || argsA.single_notify) ∧
    (argsA.single_notify = false → applySingleNotify cfgA argsA.single_notify = cfgA) :=
  c7_config_readonly_except_single_notify cfgA argsA

/-- C8 counterexample: the probe finding `" AAA"` differs from the static
symbol `"AAA"` only by surrounding whitespace, yet the dedup check
(`code not in stock_codes`) compares raw strings, so it is appended again
— equality is not "exact string match after trimming whitespace". -/
theorem c8_counterexample :
    pyStrip " AAA" = "AAA" ∧
    (scanPhase ["AAA"] false (.ok [" AAA"])).2 = ["AAA", " AAA"] := by
  constructor
  · decide
  · decide

/-- C8 amended: deduplication equality is exact raw string match with no
trimming — a probe finding already in the list verbatim is skipped, and
any other finding (even one equal to a static symbol up to surrounding
whitespace) is appended as a distinct symbol. -/
theorem c8_dedup_raw_equality (acc : List String) (p : String) :
    (p ∈ acc → (scanPhase acc false (.ok [p])).2 = acc) ∧
    (p ∉ acc → (scanPhase acc false (.ok [p])).2 = acc ++ [p]) := by
  constructor
  · intro h
    simp [scanPhase, dedupAppend_cons, dedupAppend_nil, h]
  · intro h
    simp [scanPhase, dedupAppend_cons, dedupAppend_nil, h]

/-- C8 amended witness: the theorem applied at the whitespace variant. -/
theorem c8_dedup_raw_equality_witness :
    (scanPhase ["AAA"] false (.ok [" AAA"])).2 = ["AAA"] ++ [" AAA"] :=
  (c8_dedup_raw_equality ["AAA"] " AAA").2 (by decide)

/-- C9: with no override and a configured `stock_list` that is neither a
string nor a list, the static work-list is empty and the run still
proceeds to the analysis batch instead of raising. -/
theorem c9_nonlist_config_empty (cfg : Config) (args : Args) (env : Env)
    (hsl : cfg.stock_list = .other) :
    resolveStaticList cfg = [] ∧
    staticList cfg args none = [] ∧
    Event.pipelineCall (scanPhase [] args.dry_run env.probe).2 args.dry_run
      (!args.no_notify) ∈ runFullAnalysis cfg args none env := by
  have h1 : resolveStaticList cfg = [] := by
    unfold resolveStaticList
    rw [hsl]
  have h2 : staticList cfg args none = [] := by
    show resolveStaticList (applySingleNotify cfg args.single_notify) = []
    unfold resolveStaticList
    rw [(applySingleNotify_fields cfg args.single_notify).1, hsl]
  refine ⟨h1, h2, ?_⟩
  have hmem := pipelineCall_mem_run cfg args none env
  rw [h2] at hmem
  exact hmem

/-- Configuration whose `stock_list` attribute has an unexpected type. -/
def cfgOther : Config :=
  { stock_list := .other, single_stock_notify := false,
    market_review_enabled := true, analysis_delay := some 0 }

/-- C9 witness: the theorem applied at a concrete input. -/
theorem c9_nonlist_config_empty_witness :
    resolveStaticList cfgOther = [] ∧
    staticList cfgOther argsA none = [] ∧
    Event.pipelineCall (scanPhase [] argsA.dry_run envA.probe).2 argsA.dry_run
      (!argsA.no_notify) ∈ runFullAnalysis cfgOther argsA none envA :=
  c9_nonlist_config_empty cfgOther argsA envA rfl

/-- C10: with an explicit override list, the configured `stock_list` is
never read (any value of it yields the same run), while outside dry-run
the probe is still invoked and the batch receives the override symbols
followed by the non-duplicate probe findings. -/
theorem c10_override_behavior (cfg : Config) (x : StockListValue) (args : Args)
    (env : Env) (l P : List String)
    (hdry : args.dry_run = false) (hprobe : env.probe = .ok P) :
    staticList cfg args (some l) = l ∧
    runFullAnalysis { cfg with stock_list := x } args (some l) env =
      runFullAnalysis cfg args (some l) env ∧
    Event.probeCall ∈ runFullAnalysis cfg args (some l) env ∧
    Event.pipelineCall (l ++ newFinds l P) false (!args.no_notify) ∈
      runFullAnalysis cfg args (some l) env := by
  have hscan : scanPhase (staticList cfg args (some l)) args.dry_run env.probe =
      (Event.probeCall :: (newFinds l P).map Event.captured, l ++ newFinds l P) := by
    show scanPhase l args.dry_run env.probe = _
    rw [hdry, hprobe]
    simp [scanPhase, dedupAppend_eq_newFinds]
  refine ⟨rfl, ?_, ?_, ?_⟩
  · have h1 : (applySingleNotify { cfg with stock_list := x }
        args.single_notify).market_review_enabled =
        (applySingleNotify cfg args.single_notify).market_review_enabled := by
      cases args.single_notify <;> simp [applySingleNotify]
    have h2 : (applySingleNotify { cfg with stock_list := x }
        args.single_notify).analysis_delay =
        (applySingleNotify cfg args.single_notify).analysis_delay := by
      cases args.single_notify <;> simp [applySingleNotify]
    rw [runFullAnalysis_def, runFullAnalysis_def]
    rw [show staticList { cfg with stock_list := x } args (some l) =
      staticList cfg args (some l) from rfl]
    rw [batchTail_congr (applySingleNotify { cfg with stock_list := x } args.single_notify)
      (applySingleNotify cfg args.single_notify) args env
      (env.pipelineRun (scanPhase (staticList cfg args (some l)) args.dry_run env.probe).2
        args.dry_run (!args.no_notify)) h1 h2]
  · rw [runFullAnalysis_def, hscan]
    simp
  · rw [runFullAnalysis_def, hscan]
    rw [hdry]
    simp

/-- C10 witness: the theorem applied at a concrete input. -/
theorem c10_override_behavior_witness :
    staticList cfgA argsA (some ["ZZZ"]) = ["ZZZ"] ∧
    runFullAnalysis { cfgA with stock_list := .other } argsA (some ["ZZZ"]) envA =
      runFullAnalysis cfgA argsA (some ["ZZZ"]) envA ∧
    Event.probeCall ∈ runFullAnalysis cfgA argsA (some ["ZZZ"]) envA ∧
    Event.pipelineCall (["ZZZ"] ++ newFinds ["ZZZ"] []) false (!argsA.no_notify) ∈
      runFullAnalysis cfgA argsA (some ["ZZZ"]) envA :=
  c10_override_behavior cfgA .other argsA envA ["ZZZ"] [] rfl rfl

end DailyStockAnalysis
